import Mathlib

/-!
Verification of the repository analyzer (`scripts/repo_analyzer.py`).

The Python source is shallowly embedded: pure computations become Lean
functions over `List`, `String`, `Nat` and `Rat` (Python floats on these
code paths only ever hold exact small rationals, so `Rat` models them
faithfully); the one fallible function (`generate_recommendations`, which
can raise `ZeroDivisionError`) returns `Option`; the context-manager /
filesystem behaviour of the analyzer class is modelled as explicit state
passing over a list of existing directories.
-/

namespace RepoAnalyzer

/-- Embeds the `BranchInfo` dataclass. -/
structure BranchInfo where
  name : String
  last_commit_date : String
  commit_count : Nat
  author_count : Nat
  is_protected : Bool := false
  is_main : Bool := false
deriving DecidableEq

/-- Embeds the `CommitPattern` dataclass. `percentage` is a float in the
source; every value it ever takes is `count / total * 100`, an exact
rational, so it is embedded as `Rat`. -/
structure CommitPattern where
  pattern : String
  count : Nat
  percentage : Rat
deriving DecidableEq

/-- Substring occurrence on character lists: embeds Python's
`needle in haystack` for strings. -/
def occursInList (needle : List Char) : List Char → Bool
  | [] => needle.isEmpty
  | c :: rest => needle.isPrefixOf (c :: rest) || occursInList needle rest

/-- `strContains s t` embeds Python's `t in s` on strings. -/
def strContains (s t : String) : Bool :=
  occursInList t.data s.data

/-- Embeds `str.lower()` (the commit subjects at issue are ASCII, where
per-character lowering agrees with Python). -/
def strLower (s : String) : String :=
  ⟨s.data.map Char.toLower⟩

/-- Embeds `str.startswith(p)`. -/
def strStarts (s p : String) : Bool :=
  p.data.isPrefixOf s.data

/-- The classification cascade applied to one commit subject line:
embeds the if/elif chain of `analyze_commit_patterns` (lines 190-213 of
the source), lower-casing first, prefix tests in source order, then the
two substring tests, else `other`. -/
def classify (msg : String) : String :=
  let msg_lower := strLower msg
  if strStarts msg_lower "feat" then "feat:"
  else if strStarts msg_lower "fix" then "fix:"
  else if strStarts msg_lower "hotfix" then "hotfix:"
  else if strStarts msg_lower "merge" then "merge:"
  else if strStarts msg_lower "chore" then "chore:"
  else if strStarts msg_lower "docs" then "docs:"
  else if strStarts msg_lower "test" then "test:"
  else if strStarts msg_lower "refactor" then "refactor:"
  else if strContains msg_lower "wip" then "WIP"
  else if strContains msg_lower "temp" || strContains msg_lower "temporary" then "temporary"
  else "other"

/-- Append a key to the key list unless already present: models first
insertion into the `patterns` defaultdict, whose iteration order is key
insertion order. -/
def insertKey (ks : List String) (k : String) : List String :=
  if ks.contains k then ks else ks ++ [k]

/-- The keys of the `patterns` dict in insertion order: empty messages
are skipped (the `if not commit_msg: continue`), every other message
inserts its category on first occurrence. -/
def categoryKeys (msgs : List String) : List String :=
  msgs.foldl (fun ks m => if m = "" then ks else insertKey ks (classify m)) []

/-- `total_commits` of `analyze_commit_patterns`: the number of
non-empty message lines. -/
def totalCommits (msgs : List String) : Nat :=
  (msgs.filter (fun m => m ≠ "")).length

/-- The count accumulated for category `k`: the number of non-empty
messages the cascade sends to `k`. -/
def countCategory (msgs : List String) (k : String) : Nat :=
  ((msgs.filter (fun m => m ≠ "")).filter (fun m => classify m == k)).length

/-- Insert an element arriving after `acc`'s elements into a list
already sorted by `count` descending: it goes after every element with
`count ≥` its own, preserving stability. -/
def insertByCountDesc (x : CommitPattern) : List CommitPattern → List CommitPattern
  | [] => [x]
  | y :: ys => if x.count ≤ y.count then y :: insertByCountDesc x ys else x :: y :: ys

/-- Stable sort by `count` descending: embeds
`sorted(commit_patterns, key=lambda x: x.count, reverse=True)`
(Python's `sorted` is stable; a left-to-right stable insertion sort
computes the same list). -/
def sortByCountDesc (l : List CommitPattern) : List CommitPattern :=
  l.foldl (fun acc x => insertByCountDesc x acc) []

/-- Embeds `analyze_commit_patterns`: histogram of categories in dict
insertion order, percentage guarded by `total_commits > 0`, finally
sorted by count descending. -/
def analyze_commit_patterns (msgs : List String) : List CommitPattern :=
  let total := totalCommits msgs
  let entries := (categoryKeys msgs).map (fun k =>
    { pattern := k
      count := countCategory msgs k
      percentage := if total > 0 then (countCategory msgs k : Rat) / (total : Rat) * 100 else 0 })
  sortByCountDesc entries

/-- The six CI configuration indicator paths of `calculate_metrics`. -/
def ci_cd_files : List String :=
  [".github/workflows", ".gitlab-ci.yml", "Jenkinsfile",
   "azure-pipelines.yml", "circle.yml", ".travis.yml"]

/-- The CI/CD score accumulation of `calculate_metrics` (lines 318-321):
`+20` for each indicator path present in the repository root. File
existence (`os.path.exists`) is an external fact, embedded as the list
of paths that exist. -/
def ci_cd_score (present : List String) : Nat :=
  ci_cd_files.foldl (fun s f => if present.contains f then s + 20 else s) 0

/-- `merge_frequency` of `calculate_metrics`: percentage of pattern
counts whose pattern name contains `merge` (lower-cased), guarded
against a zero total. -/
def merge_frequency (commit_patterns : List CommitPattern) : Rat :=
  let merge_commits := ((commit_patterns.filter
    (fun p => strContains (strLower p.pattern) "merge")).map (fun p => p.count)).sum
  let total := (commit_patterns.map (fun p => p.count)).sum
  if total > 0 then (merge_commits : Rat) / (total : Rat) * 100 else 0

/-- `hotfix_frequency` of `calculate_metrics`: same with `hotfix`. -/
def hotfix_frequency (commit_patterns : List CommitPattern) : Rat :=
  let hotfix_commits := ((commit_patterns.filter
    (fun p => strContains (strLower p.pattern) "hotfix")).map (fun p => p.count)).sum
  let total := (commit_patterns.map (fun p => p.count)).sum
  if total > 0 then (hotfix_commits : Rat) / (total : Rat) * 100 else 0

/-- Factor 1 of the trunk-based score, applied to the running score `s`
(lines 326-333): bucket of the number of branches with
`commit_count > 10` — all branches, the source does not exclude the
main branch here. -/
def trunkFactor1 (s : Nat) (branch_info : List BranchInfo) : Nat :=
  let long_lived_branches := (branch_info.filter (fun b => b.commit_count > 10)).length
  if long_lived_branches ≤ 2 then s + 30
  else if long_lived_branches ≤ 5 then s + 20
  else if long_lived_branches ≤ 10 then s + 10
  else s

/-- Factor 2 (lines 335-341): merge-frequency bucket. -/
def trunkFactor2 (s : Nat) (mf : Rat) : Nat :=
  if mf > 20 then s + 25 else if mf > 10 then s + 15 else if mf > 5 then s + 10 else s

/-- Factor 3 (lines 343-349): hotfix-frequency bucket, lower is
better. -/
def trunkFactor3 (s : Nat) (hf : Rat) : Nat :=
  if hf < 5 then s + 25 else if hf < 10 then s + 15 else if hf < 20 then s + 10 else s

/-- Factor 4 (lines 351-354): branch-naming bonus for `feature/` or
`feat/` prefixes. -/
def trunkFactor4 (s : Nat) (branch_info : List BranchInfo) : Nat :=
  let feature_branches := (branch_info.filter
    (fun b => strStarts b.name "feature/" || strStarts b.name "feat/")).length
  if feature_branches > 0 then s + 20 else s

/-- The trunk-based score accumulation of `calculate_metrics` (lines
323-354): `trunk_based_score` starts at 0 and the four `+=` blocks run
in source order. -/
def trunk_based_score (branch_info : List BranchInfo) (mf hf : Rat) : Nat :=
  trunkFactor4 (trunkFactor3 (trunkFactor2 (trunkFactor1 0 branch_info) mf) hf) branch_info

/-- The tuple returned by `calculate_metrics` (as a named record). -/
structure Metrics where
  branch_lifespan_avg : Rat
  merge_frequency : Rat
  hotfix_frequency : Rat
  ci_cd_score : Nat
  trunk_based_score : Nat
deriving DecidableEq

/-- Embeds `calculate_metrics`. -/
def calculate_metrics (branch_info : List BranchInfo)
    (commit_patterns : List CommitPattern) (present : List String) : Metrics :=
  let mf := merge_frequency commit_patterns
  let hf := hotfix_frequency commit_patterns
  { branch_lifespan_avg := 0
    merge_frequency := mf
    hotfix_frequency := hf
    ci_cd_score := ci_cd_score present
    trunk_based_score := trunk_based_score branch_info mf hf }

/-- The six conventional-commit pattern names of rule 3 of
`generate_recommendations`. -/
def conventionalNames : List String :=
  ["feat:", "fix:", "chore:", "docs:", "test:", "refactor:"]

/-- The three strings rule 1 of `generate_recommendations` emits when
the trunk-based score is below 50 (lines 364-367). -/
def trunkRecs : List String :=
  ["🔀 Implement trunk-based development: Reduce long-lived branches and increase merge frequency",
   "📝 Establish branch naming conventions: Use feature/, hotfix/, bugfix/ prefixes",
   "⏱️ Implement short-lived feature branches: Keep branches active for less than 2-3 days"]

/-- The three strings rule 2 emits when the CI/CD score is below 60
(lines 370-373). -/
def cicdRecs : List String :=
  ["🚀 Implement CI/CD pipeline: Add automated testing, building, and deployment",
   "✅ Add automated testing: Unit tests, integration tests, and code quality checks",
   "🔒 Implement branch protection: Require PR reviews and status checks"]

/-- The string rule 3 emits when fewer than 70% of commits are
conventional (line 380). -/
def conventionalRecs : List String :=
  ["📋 Adopt conventional commit messages: Use feat:, fix:, chore:, docs:, test:, refactor: prefixes"]

/-- The string rule 4 emits when more than 3 non-main branches have
over 20 commits (line 385). -/
def cleanupRecs : List String :=
  ["🌿 Clean up long-lived branches: Merge or delete branches with >20 commits"]

/-- The three unconditional strings rule 5 always appends
(lines 388-390). -/
def alwaysRecs : List String :=
  ["👥 Implement pair programming: Reduce single-developer branches",
   "🔄 Increase code review frequency: Require reviews for all changes",
   "📊 Add development metrics: Track cycle time, lead time, and deployment frequency"]

/-- Rule 1 block (lines 364-367): the trunk-based recommendations when
the score is below 50, else nothing. -/
def rule1Block (trunk : Nat) : List String :=
  if trunk < 50 then trunkRecs else []

/-- Rule 2 block (lines 370-373): the CI/CD recommendations when the
score is below 60, else nothing. -/
def rule2Block (cicd : Nat) : List String :=
  if cicd < 60 then cicdRecs else []

/-- Rule 3 block (lines 376-380), only reached when the total count is
non-zero: the conventional-commit recommendation when conventional
commits are under 70% of the total. -/
def rule3Block (commit_patterns : List CommitPattern) : List String :=
  let conventional_commits : Nat := ((commit_patterns.filter
    (fun p => conventionalNames.contains p.pattern)).map (fun p => p.count)).sum
  let total_commits : Nat := (commit_patterns.map (fun p => p.count)).sum
  if (conventional_commits : Rat) / (total_commits : Rat) < 7/10 then conventionalRecs else []

/-- Rule 4 block (lines 383-385): the cleanup recommendation when more
than 3 non-main branches have over 20 commits. -/
def rule4Block (branch_info : List BranchInfo) : List String :=
  if (branch_info.filter (fun b => b.commit_count > 20 && !b.is_main)).length > 3 then
    cleanupRecs
  else []

/-- Embeds `generate_recommendations` (lines 358-392), with each rule's
block named above and appended in declaration order. The source divides
`conventional_commits / total_commits` without a zero guard; with zero
total commits Python raises `ZeroDivisionError`, embedded as `none`. -/
def generate_recommendations (branch_info : List BranchInfo)
    (commit_patterns : List CommitPattern)
    (cicd : Nat) (trunk : Nat) : Option (List String) :=
  let total_commits : Nat := (commit_patterns.map (fun p => p.count)).sum
  if total_commits = 0 then none
  else
    some (rule1Block trunk ++ rule2Block cicd ++ rule3Block commit_patterns ++
      rule4Block branch_info ++ alwaysRecs)

/-! ### Temporary-directory lifecycle (context manager of `RepositoryAnalyzer`)

The filesystem is embedded as the list of currently existing directory
paths; `sys.exit` / `subprocess.CalledProcessError` become the `error`
branch of `Except`. `analyze` clones only when `repo_path` does not
exist, as in the source (line 399), and `withAnalyzer` embeds the
`with RepositoryAnalyzer(...)` block of `main`: run the body, then run
`__exit__` unconditionally (Python runs `__exit__` on normal exit, on a
raised exception, and on `SystemExit` from `sys.exit` alike). -/

/-- The analyzer's mutable attributes relevant to the clone lifecycle. -/
structure AnalyzerState where
  repo_path : String
  temp_dir : Option String
deriving DecidableEq

/-- Embeds `clone_repository`: `tempfile.mkdtemp` creates directory `d`
(the fresh name chosen by the OS is a parameter), `self.temp_dir` is set
to it, then the two `git clone` calls either succeed (returning the
working-copy path) or fail, in which case the source calls
`sys.exit(1)` — an abnormal exit, embedded as `Except.error`. -/
def clone_repository (a : AnalyzerState) (dirs : List String) (d : String)
    (cloneOk : Bool) : AnalyzerState × List String × Except Unit String :=
  let a' := { a with temp_dir := some d }
  let dirs' := d :: dirs
  if cloneOk then (a', dirs', Except.ok (d ++ "/working"))
  else (a', dirs', Except.error ())

/-- Embeds `__exit__` (lines 81-83): if `temp_dir` is set and exists,
`shutil.rmtree` removes it. -/
def contextExit (a : AnalyzerState) (dirs : List String) : List String :=
  match a.temp_dir with
  | some d => if dirs.contains d then dirs.filter (fun x => x ≠ d) else dirs
  | none => dirs

/-- Embeds the clone phase of `analyze` (lines 398-400): clone only when
`repo_path` does not exist. The remainder of `analyze` touches no
directories, so its success is abstracted to `Except.ok`. -/
def analyzePhase (a : AnalyzerState) (dirs : List String) (d : String)
    (cloneOk : Bool) : AnalyzerState × List String × Except Unit Unit :=
  if dirs.contains a.repo_path then (a, dirs, Except.ok ())
  else
    match clone_repository a dirs d cloneOk with
    | (a', dirs', Except.ok _) => (a', dirs', Except.ok ())
    | (a', dirs', Except.error e) => (a', dirs', Except.error e)

/-- Embeds the `with RepositoryAnalyzer(...)` block of `main`: the body
runs, then `__exit__` runs on every exit path with the analyzer's final
attribute state. -/
def withAnalyzer (a : AnalyzerState) (dirs : List String) (d : String)
    (cloneOk : Bool) : List String × Except Unit Unit :=
  let r := analyzePhase a dirs d cloneOk
  (contextExit r.1 r.2.1, r.2.2)

/-! ### The four trunk-based bonuses, named individually -/

/-- Factor 1 of the trunk-based score as the source computes it: bucket
of the number of branches (main included) with more than 10 commits. -/
def longLivedBonus (branch_info : List BranchInfo) : Nat :=
  let n := (branch_info.filter (fun b => b.commit_count > 10)).length
  if n ≤ 2 then 30 else if n ≤ 5 then 20 else if n ≤ 10 then 10 else 0

/-- Factor 2: merge-frequency bucket. -/
def mergeBonus (mf : Rat) : Nat :=
  if mf > 20 then 25 else if mf > 10 then 15 else if mf > 5 then 10 else 0

/-- Factor 3: hotfix-frequency bucket (lower is better). -/
def hotfixBonus (hf : Rat) : Nat :=
  if hf < 5 then 25 else if hf < 10 then 15 else if hf < 20 then 10 else 0

/-- Factor 4: branch-naming bonus. -/
def namingBonus (branch_info : List BranchInfo) : Nat :=
  if (branch_info.filter
      (fun b => strStarts b.name "feature/" || strStarts b.name "feat/")).length > 0
  then 20 else 0

/-- The long-lived-branch bucket as the SPEC words it (claim C2):
counting only non-main branches. Stated for comparison with the
source's `longLivedBonus`, which counts every branch. -/
def specLongLivedBonus (branch_info : List BranchInfo) : Nat :=
  let n := (branch_info.filter (fun b => !b.is_main && b.commit_count > 10)).length
  if n ≤ 2 then 30 else if n ≤ 5 then 20 else if n ≤ 10 then 10 else 0

end RepoAnalyzer

namespace RepoAnalyzer

/-! ### Helper lemmas (shared, not claim theorems) -/

lemma trunkFactor1_eq (s : Nat) (bs : List BranchInfo) :
    trunkFactor1 s bs = s + longLivedBonus bs := by
  simp only [trunkFactor1, longLivedBonus]
  split_ifs <;> omega

lemma trunkFactor2_eq (s : Nat) (mf : Rat) :
    trunkFactor2 s mf = s + mergeBonus mf := by
  simp only [trunkFactor2, mergeBonus]
  split_ifs <;> omega

lemma trunkFactor3_eq (s : Nat) (hf : Rat) :
    trunkFactor3 s hf = s + hotfixBonus hf := by
  simp only [trunkFactor3, hotfixBonus]
  split_ifs <;> omega

lemma trunkFactor4_eq (s : Nat) (bs : List BranchInfo) :
    trunkFactor4 s bs = s + namingBonus bs := by
  simp only [trunkFactor4, namingBonus]
  split_ifs <;> omega

/-- The source's sequential accumulation is the sum of the four named
bonuses. -/
lemma trunk_score_decomp (bs : List BranchInfo) (mf hf : Rat) :
    trunk_based_score bs mf hf =
      longLivedBonus bs + mergeBonus mf + hotfixBonus hf + namingBonus bs := by
  rw [trunk_based_score, trunkFactor1_eq, trunkFactor2_eq, trunkFactor3_eq, trunkFactor4_eq]
  omega

lemma longLivedBonus_le (bs : List BranchInfo) : longLivedBonus bs ≤ 30 := by
  simp only [longLivedBonus]; split_ifs <;> omega

lemma mergeBonus_le (mf : Rat) : mergeBonus mf ≤ 25 := by
  simp only [mergeBonus]; split_ifs <;> omega

lemma hotfixBonus_le (hf : Rat) : hotfixBonus hf ≤ 25 := by
  simp only [hotfixBonus]; split_ifs <;> omega

lemma namingBonus_le (bs : List BranchInfo) : namingBonus bs ≤ 20 := by
  simp only [namingBonus]; split_ifs <;> omega

lemma ci_cd_score_eq_mul (present : List String) :
    ci_cd_score present =
      20 * (ci_cd_files.filter (fun f => present.contains f)).length := by
  simp only [ci_cd_score, ci_cd_files, List.foldl_cons, List.foldl_nil,
    List.filter_cons, List.filter_nil]
  generalize present.contains ".github/workflows" = b1
  generalize present.contains ".gitlab-ci.yml" = b2
  generalize present.contains "Jenkinsfile" = b3
  generalize present.contains "azure-pipelines.yml" = b4
  generalize present.contains "circle.yml" = b5
  generalize present.contains ".travis.yml" = b6
  cases b1 <;> cases b2 <;> cases b3 <;> cases b4 <;> cases b5 <;> cases b6 <;> rfl

/-! ### Histogram counting lemmas (shared, not claim theorems) -/

lemma insertByCountDesc_perm (x : CommitPattern) (l : List CommitPattern) :
    List.Perm (insertByCountDesc x l) (x :: l) := by
  induction l with
  | nil => exact List.Perm.refl _
  | cons y ys ih =>
    simp only [insertByCountDesc]
    split
    · exact (ih.cons y).trans (List.Perm.swap x y ys)
    · exact List.Perm.refl _

lemma foldl_insert_perm :
    ∀ (l acc : List CommitPattern),
      List.Perm (l.foldl (fun a x => insertByCountDesc x a) acc) (acc ++ l) := by
  intro l
  induction l with
  | nil => intro acc; simp
  | cons x xs ih =>
    intro acc
    have h1 := ih (insertByCountDesc x acc)
    have h2 : List.Perm (insertByCountDesc x acc ++ xs) ((x :: acc) ++ xs) :=
      (insertByCountDesc_perm x acc).append_right xs
    have h3 : List.Perm ((x :: acc) ++ xs) (acc ++ x :: xs) := by
      simpa using List.perm_middle.symm
    exact (h1.trans h2).trans h3

lemma sortByCountDesc_perm (l : List CommitPattern) : List.Perm (sortByCountDesc l) l := by
  simpa using foldl_insert_perm l []

lemma mem_insertKey_self (ks : List String) (k : String) : k ∈ insertKey ks k := by
  by_cases h : ks.contains k <;> simp_all [insertKey]

lemma mem_insertKey_mono (ks : List String) (k k' : String) (h : k' ∈ ks) :
    k' ∈ insertKey ks k := by
  by_cases hc : ks.contains k <;> simp_all [insertKey]

lemma insertKey_nodup (ks : List String) (k : String) (h : ks.Nodup) :
    (insertKey ks k).Nodup := by
  by_cases hc : ks.contains k <;> simp_all [insertKey, List.nodup_append]

lemma keys_foldl_nodup :
    ∀ (msgs : List String) (ks : List String), ks.Nodup →
      (msgs.foldl (fun ks m => if m = "" then ks else insertKey ks (classify m)) ks).Nodup := by
  intro msgs
  induction msgs with
  | nil => intro ks h; exact h
  | cons m rest ih =>
    intro ks h
    simp only [List.foldl_cons]
    split
    · exact ih ks h
    · exact ih _ (insertKey_nodup ks (classify m) h)

lemma categoryKeys_nodup (msgs : List String) : (categoryKeys msgs).Nodup :=
  keys_foldl_nodup msgs [] List.nodup_nil

lemma keys_foldl_mono :
    ∀ (msgs : List String) (ks : List String) (k : String), k ∈ ks →
      k ∈ msgs.foldl (fun ks m => if m = "" then ks else insertKey ks (classify m)) ks := by
  intro msgs
  induction msgs with
  | nil => intro ks k h; exact h
  | cons m rest ih =>
    intro ks k h
    simp only [List.foldl_cons]
    split
    · exact ih ks k h
    · exact ih _ k (mem_insertKey_mono ks (classify m) k h)

lemma keys_foldl_covers :
    ∀ (msgs : List String) (ks : List String) (m : String), m ∈ msgs → m ≠ "" →
      classify m ∈ msgs.foldl (fun ks m => if m = "" then ks else insertKey ks (classify m)) ks := by
  intro msgs
  induction msgs with
  | nil => intro ks m h; cases h
  | cons x rest ih =>
    intro ks m hm hne
    simp only [List.foldl_cons]
    rcases List.mem_cons.mp hm with rfl | hr
    · rw [if_neg hne]
      exact keys_foldl_mono rest _ _ (mem_insertKey_self ks (classify m))
    · split
      · exact ih ks m hr hne
      · exact ih _ m hr hne

lemma categoryKeys_covers (msgs : List String) (m : String) (hm : m ∈ msgs) (hne : m ≠ "") :
    classify m ∈ categoryKeys msgs :=
  keys_foldl_covers msgs [] m hm hne

lemma sum_map_add_nat (l : List String) (f g : String → Nat) :
    (l.map (fun k => f k + g k)).sum = (l.map f).sum + (l.map g).sum := by
  induction l with
  | nil => rfl
  | cons x xs ih => simp [ih]; omega

lemma indicator_sum_zero (b : String) :
    ∀ ks : List String, b ∉ ks →
      (ks.map (fun k => if b = k then 1 else 0)).sum = 0 := by
  intro ks
  induction ks with
  | nil => intro; rfl
  | cons k ks ih =>
    intro h
    have hb : ¬ (b = k) := fun e => h (e ▸ List.mem_cons_self k ks)
    simp only [List.map_cons, List.sum_cons, if_neg hb]
    simpa using ih (fun hmem => h (List.mem_cons_of_mem k hmem))

lemma indicator_sum_one (b : String) :
    ∀ ks : List String, ks.Nodup → b ∈ ks →
      (ks.map (fun k => if b = k then 1 else 0)).sum = 1 := by
  intro ks
  induction ks with
  | nil => intro _ h; cases h
  | cons k ks ih =>
    intro hnd hmem
    rcases List.mem_cons.mp hmem with rfl | hr
    · have hnotin : b ∉ ks := (List.nodup_cons.mp hnd).1
      simp [indicator_sum_zero b ks hnotin]
    · have hb : ¬ (b = k) := by
        rintro rfl
        exact (List.nodup_cons.mp hnd).1 hr
      simp only [List.map_cons, List.sum_cons, if_neg hb]
      rw [ih (List.nodup_cons.mp hnd).2 hr]

lemma partition_count :
    ∀ (l : List String) (keys : List String), keys.Nodup →
      (∀ x ∈ l, classify x ∈ keys) →
      (keys.map (fun k => (l.filter (fun m => classify m == k)).length)).sum = l.length := by
  intro l
  induction l with
  | nil => intro keys _ _; simp
  | cons x xs ih =>
    intro keys hnd hcov
    have hmapeq : keys.map (fun k => ((x :: xs).filter (fun m => classify m == k)).length) =
        keys.map (fun k => (if classify x = k then 1 else 0) +
          (xs.filter (fun m => classify m == k)).length) := by
      apply List.map_congr_left
      intro k _
      by_cases h : classify x = k
      · simp [List.filter_cons, h, Nat.add_comm]
      · simp [List.filter_cons, h]
    rw [hmapeq, sum_map_add_nat]
    rw [indicator_sum_one (classify x) keys hnd (hcov x (List.mem_cons_self x xs))]
    rw [ih keys hnd (fun y hy => hcov y (List.mem_cons_of_mem x hy))]
    simp [Nat.add_comm]

/-- The per-category counts of the histogram add up to the number of
non-empty messages. -/
lemma counts_sum (msgs : List String) :
    ((categoryKeys msgs).map (fun k => countCategory msgs k)).sum = totalCommits msgs := by
  simp only [countCategory, totalCommits]
  exact partition_count (msgs.filter (fun m => m ≠ "")) (categoryKeys msgs)
    (categoryKeys_nodup msgs)
    (fun x hx => categoryKeys_covers msgs x (List.mem_of_mem_filter hx)
      (by simpa using (List.mem_filter.mp hx).2))

/-! ### Claim theorems -/

/-- Claim C1 (code bug). The spec requires: if total commits is 0, the
conventional-commit rule must not divide by zero and a well-defined
recommendation list must still be returned. The source has no such
guard: with an empty commit-pattern list, `conventional_commits /
total_commits` at line 379 divides by zero and Python raises
`ZeroDivisionError`; the embedded function returns `none` instead of a
list. -/
theorem zero_commits_recommendations_raise :
    generate_recommendations [] [] 0 0 = none := by decide

/-- Claim C2, counterexample. The claim says factor 1 counts only
non-main branches with more than 10 commits. Input: a main branch with
11 commits plus two non-main branches with 11 commits, merge frequency
0, hotfix frequency 25, no `feature/` names. There are exactly 2
qualifying non-main branches, so the claim predicts a +30 bonus and a
total score of 30; the source counts the main branch too (3 branches,
bucket +20) and returns 20. -/
theorem long_lived_bonus_counts_main_counterexample :
    ((([⟨"main", "d", 11, 1, false, true⟩, ⟨"alpha", "d", 11, 1, false, false⟩,
        ⟨"beta", "d", 11, 1, false, false⟩] : List BranchInfo).filter
        (fun b => !b.is_main && b.commit_count > 10)).length = 2) ∧
    specLongLivedBonus [⟨"main", "d", 11, 1, false, true⟩, ⟨"alpha", "d", 11, 1, false, false⟩,
        ⟨"beta", "d", 11, 1, false, false⟩] = 30 ∧
    mergeBonus 0 = 0 ∧ hotfixBonus 25 = 0 ∧
    namingBonus [⟨"main", "d", 11, 1, false, true⟩, ⟨"alpha", "d", 11, 1, false, false⟩,
        ⟨"beta", "d", 11, 1, false, false⟩] = 0 ∧
    trunk_based_score [⟨"main", "d", 11, 1, false, true⟩, ⟨"alpha", "d", 11, 1, false, false⟩,
        ⟨"beta", "d", 11, 1, false, false⟩] 0 25 = 20 := by decide

/-- Claim C2 (amended): the long-lived-branch bonus is computed by
counting ALL branches (the main branch included) whose commit-count
exceeds 10, awarding +30 if that count is at most 2, +20 if at most 5,
+10 if at most 10, and +0 otherwise; the trunk-based score is that
bonus plus the other three factors. -/
theorem trunk_long_lived_bonus_all_branches (bs : List BranchInfo) (mf hf : Rat) :
    trunk_based_score bs mf hf =
      (if (bs.filter (fun b => b.commit_count > 10)).length ≤ 2 then 30
       else if (bs.filter (fun b => b.commit_count > 10)).length ≤ 5 then 20
       else if (bs.filter (fun b => b.commit_count > 10)).length ≤ 10 then 10
       else 0) + mergeBonus mf + hotfixBonus hf + namingBonus bs := by
  rw [trunk_score_decomp]
  rfl

/-- Claim C3, counterexample. With all six indicator files present the
score is 6 × 20 = 120, exceeding the claimed bound of 100. -/
theorem ci_cd_score_exceeds_100_counterexample :
    ci_cd_score [".github/workflows", ".gitlab-ci.yml", "Jenkinsfile",
        "azure-pipelines.yml", "circle.yml", ".travis.yml"] = 120 ∧
    ¬ (ci_cd_score [".github/workflows", ".gitlab-ci.yml", "Jenkinsfile",
        "azure-pipelines.yml", "circle.yml", ".travis.yml"] ≤ 100) := by decide

/-- Claim C3 (amended): the CI/CD score equals 20 times the number of
the six known indicator paths present in the repository root, hence
never exceeds 120 (not 100: with all six present it reaches 120); with
exactly 3 of the 6 present the score is 60. -/
theorem ci_cd_score_twenty_per_indicator (present : List String) :
    ci_cd_score present = 20 * (ci_cd_files.filter (fun f => present.contains f)).length ∧
    ci_cd_score present ≤ 120 ∧
    ci_cd_score [".gitlab-ci.yml", "Jenkinsfile", ".travis.yml"] = 60 := by
  refine ⟨ci_cd_score_eq_mul present, ?_, by decide⟩
  rw [ci_cd_score_eq_mul present]
  have hle : (ci_cd_files.filter (fun f => present.contains f)).length ≤ ci_cd_files.length :=
    List.length_filter_le _ _
  have h6 : ci_cd_files.length = 6 := rfl
  omega

/-- Claim C4: for every input, the trunk-based score equals the sum of
the four independent bonuses, each a mutually exclusive if/elif bucket
cascade, and the total never exceeds 100 = 30 + 25 + 25 + 20. -/
theorem trunk_score_sum_of_bonuses_le_100 (bs : List BranchInfo) (mf hf : Rat) :
    trunk_based_score bs mf hf =
      longLivedBonus bs + mergeBonus mf + hotfixBonus hf + namingBonus bs ∧
    trunk_based_score bs mf hf ≤ 100 := by
  refine ⟨trunk_score_decomp bs mf hf, ?_⟩
  have h0 := trunk_score_decomp bs mf hf
  have h1 := longLivedBonus_le bs
  have h2 := mergeBonus_le mf
  have h3 := hotfixBonus_le hf
  have h4 := namingBonus_le bs
  omega

/-- Claim C5: the classifier lower-cases each subject line and assigns
it to exactly one category by first match in the source's fixed order
(prefixes `feat`, `fix`, `hotfix`, `merge`, `chore`, `docs`, `test`,
`refactor`, then substring `wip`, then substring `temp`/`temporary`,
else `other`); on the five example messages it yields `feat:`, `fix:`,
`merge:`, `hotfix:` and `other` once each, at 20% each. The extra
conjuncts exercise the lower-casing and the substring fallbacks. -/
theorem classifier_five_messages :
    analyze_commit_patterns ["feat: add x", "fix: bug", "merge branch", "hotfix: urgent", "random note"] =
      [⟨"feat:", 1, 20⟩, ⟨"fix:", 1, 20⟩, ⟨"merge:", 1, 20⟩, ⟨"hotfix:", 1, 20⟩, ⟨"other", 1, 20⟩] ∧
    classify "FEAT: loud" = "feat:" ∧
    classify "doing wip things" = "WIP" ∧
    classify "a temporary hack" = "temporary" := by
  refine ⟨?_, by decide, by decide, by decide⟩
  have e : analyze_commit_patterns ["feat: add x", "fix: bug", "merge branch", "hotfix: urgent", "random note"] =
      [⟨"feat:", 1, ((1:Nat):ℚ)/((5:Nat):ℚ)*100⟩, ⟨"fix:", 1, ((1:Nat):ℚ)/((5:Nat):ℚ)*100⟩,
       ⟨"merge:", 1, ((1:Nat):ℚ)/((5:Nat):ℚ)*100⟩, ⟨"hotfix:", 1, ((1:Nat):ℚ)/((5:Nat):ℚ)*100⟩,
       ⟨"other", 1, ((1:Nat):ℚ)/((5:Nat):ℚ)*100⟩] := rfl
  rw [e]
  norm_num

/-- Claim C6: for every commit message list containing at least one
non-empty message (the classifier skips empty lines, so "non-empty
commit set" means at least one non-empty line), the percentages of all
`CommitPattern` entries produced sum to exactly 100 — exact in `Rat`,
hence within any rounding tolerance of the float computation. -/
theorem percentages_sum_to_100 (msgs : List String) (h : ∃ m ∈ msgs, m ≠ "") :
    ((analyze_commit_patterns msgs).map CommitPattern.percentage).sum = 100 := by
  have htot : 0 < totalCommits msgs := by
    obtain ⟨m, hm, hne⟩ := h
    have hmem : m ∈ msgs.filter (fun m => m ≠ "") :=
      List.mem_filter.mpr ⟨hm, by simpa using hne⟩
    exact List.length_pos_of_mem hmem
  simp only [analyze_commit_patterns]
  rw [List.Perm.sum_eq (List.Perm.map CommitPattern.percentage (sortByCountDesc_perm _))]
  rw [List.map_map]
  rw [List.map_congr_left (g := fun k =>
      (countCategory msgs k : Rat) * (100 / (totalCommits msgs : Rat)))
    (by
      intro k _
      simp only [Function.comp_apply, if_pos htot]
      ring)]
  rw [List.sum_map_mul_right]
  have hcast : ∀ ks : List String,
      (ks.map (fun k => (countCategory msgs k : Rat))).sum =
        ((ks.map (fun k => countCategory msgs k)).sum : Nat) := by
    intro ks
    induction ks with
    | nil => simp
    | cons a l ih => simp [ih]
  rw [hcast, counts_sum]
  have hne0 : ((totalCommits msgs : Nat) : Rat) ≠ 0 := by
    exact_mod_cast Nat.pos_iff_ne_zero.mp htot
  field_simp

/-- Witness for C6 at the one-message list `["feat: add x"]`. -/
theorem percentages_sum_to_100_witness :
    (∃ m ∈ ["feat: add x"], m ≠ "") ∧
    ((analyze_commit_patterns ["feat: add x"]).map CommitPattern.percentage).sum = 100 :=
  ⟨by decide, percentages_sum_to_100 ["feat: add x"] (by decide)⟩

/-- Claim C7: for an empty commit message list the pattern list is
empty (so every `CommitPattern` percentage is trivially 0) and the
metrics calculator returns merge frequency 0 and hotfix frequency 0:
both divisions are guarded by `total_commits > 0`, no error occurs.
The `[""]` case is the literal shape `"".split('\n')` produces for an
empty `git log` output. -/
theorem empty_commits_zero_metrics (bs : List BranchInfo) (present : List String) :
    analyze_commit_patterns [] = [] ∧
    analyze_commit_patterns [""] = [] ∧
    (calculate_metrics bs (analyze_commit_patterns []) present).merge_frequency = 0 ∧
    (calculate_metrics bs (analyze_commit_patterns []) present).hotfix_frequency = 0 ∧
    ((analyze_commit_patterns []).map CommitPattern.percentage).all (fun q => q == 0) = true :=
  ⟨rfl, rfl, rfl, rfl, rfl⟩

/-- Claim C8, counterexample. The claim quantifies over every input,
but at an input with zero total commits (empty commit-pattern list) the
source raises `ZeroDivisionError` before reaching the unconditional
rules, so no recommendation list is produced at all (here: even with
maximal scores, so rules 1 and 2 are not the cause). -/
theorem recommendations_zero_commits_counterexample :
    generate_recommendations [] [] 100 100 = none := by decide

/-- Claim C8 (amended): for every input whose commit-pattern counts sum
to a positive total, the generator returns a list that contains the
three unconditional entries (pair programming, code review frequency,
development metrics) and is exactly the concatenation of the five
rules' blocks in declaration order, with no deduplication; the output
is a pure function of the input, hence deterministic. On inputs with
zero total commits the source raises instead of returning (claim C8 as
stated is false there, see the counterexample). -/
theorem recommendations_blocks_in_order (bs : List BranchInfo)
    (cps : List CommitPattern) (ci tb : Nat)
    (h : 0 < (cps.map (fun p => p.count)).sum) :
    ∃ l : List String,
      generate_recommendations bs cps ci tb = some l ∧
      (∀ r ∈ alwaysRecs, r ∈ l) ∧
      l = rule1Block tb ++ rule2Block ci ++ rule3Block cps ++ rule4Block bs ++ alwaysRecs := by
  have h0 : ¬ ((cps.map (fun p => p.count)).sum = 0) := by omega
  refine ⟨_, ?_, ?_, rfl⟩
  · simp only [generate_recommendations]
    rw [if_neg h0]
  · intro r hr
    simp [hr]

/-- Witness for C8 at one `merge:` pattern with count 2 and maximal
scores. -/
theorem recommendations_blocks_in_order_witness :
    0 < (([⟨"merge:", 2, 100⟩] : List CommitPattern).map (fun p => p.count)).sum ∧
    ∃ l : List String,
      generate_recommendations [] [⟨"merge:", 2, 100⟩] 100 100 = some l ∧
      (∀ r ∈ alwaysRecs, r ∈ l) ∧
      l = rule1Block 100 ++ rule2Block 100 ++ rule3Block [⟨"merge:", 2, 100⟩] ++
        rule4Block [] ++ alwaysRecs :=
  ⟨by decide, recommendations_blocks_in_order [] [⟨"merge:", 2, 100⟩] 100 100 (by decide)⟩

lemma drop_last_block (xs t : List String) :
    (xs ++ t).drop ((xs ++ t).length - t.length) = t := by
  rw [List.length_append]
  have h : xs.length + t.length - t.length = xs.length := by omega
  rw [h, List.drop_left]

lemma rule1Block_length (t : Nat) : (rule1Block t).length ≤ 3 := by
  unfold rule1Block; split <;> decide

lemma rule2Block_length (c : Nat) : (rule2Block c).length ≤ 3 := by
  unfold rule2Block; split <;> decide

lemma rule3Block_length (cps : List CommitPattern) : (rule3Block cps).length ≤ 1 := by
  simp only [rule3Block]
  split <;> decide

lemma rule4Block_length (bs : List BranchInfo) : (rule4Block bs).length ≤ 1 := by
  unfold rule4Block; split <;> decide

/-- Claim C10: whenever the recommendation generator returns a list,
the list has between 3 and 11 elements inclusive and its final three
elements are the pair-programming, code-review and development-metrics
recommendations, in that fixed order. -/
theorem recommendations_length_and_tail (bs : List BranchInfo)
    (cps : List CommitPattern) (ci tb : Nat) (l : List String)
    (h : generate_recommendations bs cps ci tb = some l) :
    3 ≤ l.length ∧ l.length ≤ 11 ∧ l.drop (l.length - 3) = alwaysRecs := by
  simp only [generate_recommendations] at h
  by_cases h0 : (cps.map (fun p => p.count)).sum = 0
  · rw [if_pos h0] at h
    cases h
  · rw [if_neg h0] at h
    have hl := Option.some.inj h
    subst hl
    have h1 := rule1Block_length tb
    have h2 := rule2Block_length ci
    have h3 := rule3Block_length cps
    have h4 := rule4Block_length bs
    have h5 : alwaysRecs.length = 3 := by decide
    refine ⟨?_, ?_, ?_⟩
    · simp only [List.length_append]
      omega
    · simp only [List.length_append]
      omega
    · exact drop_last_block _ alwaysRecs

/-- Witness for C10 at one `merge:` pattern with count 2 and maximal
scores; the returned list is recovered with `Option.getD`. -/
theorem recommendations_length_and_tail_witness :
    generate_recommendations [] [⟨"merge:", 2, 100⟩] 100 100 =
      some ((generate_recommendations [] [⟨"merge:", 2, 100⟩] 100 100).getD []) ∧
    (3 ≤ ((generate_recommendations [] [⟨"merge:", 2, 100⟩] 100 100).getD []).length ∧
     ((generate_recommendations [] [⟨"merge:", 2, 100⟩] 100 100).getD []).length ≤ 11 ∧
     ((generate_recommendations [] [⟨"merge:", 2, 100⟩] 100 100).getD []).drop
       (((generate_recommendations [] [⟨"merge:", 2, 100⟩] 100 100).getD []).length - 3) =
       alwaysRecs) :=
  ⟨rfl, recommendations_length_and_tail [] [⟨"merge:", 2, 100⟩] 100 100 _ rfl⟩

/-- Claim C9: if a temporary clone directory was created during the
analysis run (`temp_dir` was set), it no longer exists once the
`with`-block that wraps the analysis returns — on the normal path and
on the error path (`sys.exit` on clone failure raises `SystemExit`,
which still triggers `__exit__`) alike, since `__exit__` removes the
directory unconditionally. -/
theorem temp_dir_removed_after_with (a : AnalyzerState) (dirs : List String)
    (d : String) (cloneOk : Bool) (t : String)
    (h : (analyzePhase a dirs d cloneOk).1.temp_dir = some t) :
    t ∉ (withAnalyzer a dirs d cloneOk).1 := by
  simp only [withAnalyzer, contextExit, h]
  split
  · intro hmem
    have h2 := List.mem_filter.mp hmem
    simp at h2
  · next hc =>
    intro hmem
    exact hc (by simpa using hmem)

/-- Witness for C9: a clone happens (`repo_path` absent), on both the
successful and the failing clone path the created directory is gone
afterwards. -/
theorem temp_dir_removed_after_with_witness :
    ((analyzePhase ⟨"/repo", none⟩ [] "/tmp/repo_analysis_x" true).1.temp_dir =
      some "/tmp/repo_analysis_x") ∧
    "/tmp/repo_analysis_x" ∉ (withAnalyzer ⟨"/repo", none⟩ [] "/tmp/repo_analysis_x" true).1 ∧
    ((analyzePhase ⟨"/repo", none⟩ [] "/tmp/repo_analysis_x" false).1.temp_dir =
      some "/tmp/repo_analysis_x") ∧
    "/tmp/repo_analysis_x" ∉ (withAnalyzer ⟨"/repo", none⟩ [] "/tmp/repo_analysis_x" false).1 :=
  ⟨rfl, temp_dir_removed_after_with _ _ _ _ _ rfl,
   rfl, temp_dir_removed_after_with _ _ _ _ _ rfl⟩

end RepoAnalyzer
